import Mathlib

/-!
Verification of the invoice-merge core (src/core of the repository):
grid layout mathematics (src/core/layout.py), crop-rectangle resolution
(src/core/cropper.py) and the merge/preview pipeline (src/core/merger.py).

Real-valued page coordinates are modelled by the rationals.  The geometry
of PyMuPDF rectangles (fitz.Rect) is modelled by the structure Rect below:
width and height equal max(x1 - x0, 0) and max(y1 - y0, 0), a rectangle is
empty when x0 >= x1 or y0 >= y1, and intersection is componentwise max/min,
matching the documented fitz.Rect semantics used by the code.

The external PDF engine (PyMuPDF itself) is not part of the repository; the
merge pipeline is embedded as a state-passing function over an oracle
(MergeEnv) that fixes, for every path and item index, whether the fallible
engine operations (open, crop-rectangle computation, compose, save) fail and
what the cancellation predicate answers at each poll.  The run state records
the observable events of a run: which source handles were opened into the
run cache, which were closed, which item indices were composed, how many
output pages were added, and whether the output document was created, saved
and closed.
-/

namespace InvoiceMerge

/-- Model of fitz.Rect: a rectangle given by its corner coordinates. -/
structure Rect where
  x0 : ℚ
  y0 : ℚ
  x1 : ℚ
  y1 : ℚ
deriving DecidableEq

namespace Rect

/-- fitz.Rect.width: max(x1 - x0, 0), never negative. -/
def width (r : Rect) : ℚ := max (r.x1 - r.x0) 0

/-- fitz.Rect.height: max(y1 - y0, 0), never negative. -/
def height (r : Rect) : ℚ := max (r.y1 - r.y0) 0

/-- fitz.Rect.get_area(): width times height. -/
def getArea (r : Rect) : ℚ := r.width * r.height

/-- fitz.Rect.is_empty: holds when x0 >= x1 or y0 >= y1. -/
def IsEmpty (r : Rect) : Prop := r.x1 ≤ r.x0 ∨ r.y1 ≤ r.y0

instance (r : Rect) : Decidable r.IsEmpty :=
  decidable_of_iff (r.x1 ≤ r.x0 ∨ r.y1 ≤ r.y0) Iff.rfl

/-- fitz rectangle intersection (the & operator): componentwise max/min. -/
def intersect (r s : Rect) : Rect :=
  ⟨max r.x0 s.x0, max r.y0 s.y0, min r.x1 s.x1, min r.y1 s.y1⟩

/-- Containment of rectangles, coordinatewise: inner lies within outer.
This is the notion of being contained within the page rectangle used by
the specification claims. -/
def contains (outer inner : Rect) : Prop :=
  outer.x0 ≤ inner.x0 ∧ outer.y0 ≤ inner.y0 ∧ inner.x1 ≤ outer.x1 ∧ inner.y1 ≤ outer.y1

instance (a b : Rect) : Decidable (Rect.contains a b) :=
  decidable_of_iff (a.x0 ≤ b.x0 ∧ a.y0 ≤ b.y0 ∧ b.x1 ≤ a.x1 ∧ b.y1 ≤ a.y1) Iff.rfl

end Rect

/-- The page rectangle of a page of width w and height h: fitz pages have
their rectangle anchored at the origin. -/
def pageRect (w h : ℚ) : Rect := ⟨0, 0, w, h⟩

/-- Page orientation, from LayoutConfig.a4_orientation in src/core/models.py. -/
inductive Orientation where
  | portrait
  | landscape
deriving DecidableEq

/-- LayoutConfig from src/core/models.py.  rows and cols are Python ints,
margin and gap are page-unit quantities. -/
structure LayoutConfig where
  rows : Int
  cols : Int
  a4_orientation : Orientation
  margin : ℚ
  gap : ℚ
deriving DecidableEq

/-- The constraints enforced by LayoutConfig.__post_init__: positive grid
dimensions and non-negative margin and gap. -/
def LayoutConfig.Valid (cfg : LayoutConfig) : Prop :=
  0 < cfg.rows ∧ 0 < cfg.cols ∧ 0 ≤ cfg.margin ∧ 0 ≤ cfg.gap

instance (cfg : LayoutConfig) : Decidable cfg.Valid :=
  decidable_of_iff (0 < cfg.rows ∧ 0 < cfg.cols ∧ 0 ≤ cfg.margin ∧ 0 ≤ cfg.gap) Iff.rfl

/-- LayoutConfig.page_size: A4 in points, swapped for landscape. -/
def LayoutConfig.page_size (cfg : LayoutConfig) : ℚ × ℚ :=
  if cfg.a4_orientation = Orientation.portrait then (595.27, 841.89)
  else (841.89, 595.27)

namespace LayoutCalculator

/-- LayoutCalculator.get_cell_size from src/core/layout.py. -/
def get_cell_size (cfg : LayoutConfig) : ℚ × ℚ :=
  let page_w := cfg.page_size.1
  let page_h := cfg.page_size.2
  let cell_w := (page_w - 2 * cfg.margin - ((cfg.cols : ℚ) - 1) * cfg.gap) / (cfg.cols : ℚ)
  let cell_h := (page_h - 2 * cfg.margin - ((cfg.rows : ℚ) - 1) * cfg.gap) / (cfg.rows : ℚ)
  (cell_w, cell_h)

/-- LayoutCalculator.calculate_scale from src/core/layout.py: scale factor
to fit the source rectangle into a cell, guarding non-positive source
dimensions by returning 1.0. -/
def calculate_scale (cfg : LayoutConfig) (src_rect : Rect) : ℚ :=
  let cell_w := (get_cell_size cfg).1
  let cell_h := (get_cell_size cfg).2
  let src_w := src_rect.width
  let src_h := src_rect.height
  if src_w ≤ 0 ∨ src_h ≤ 0 then 1
  else min (cell_w / src_w) (cell_h / src_h)

/-- LayoutCalculator.get_cell_position from src/core/layout.py.  Python
floor division and modulus are Int.fdiv and Int.fmod. -/
def get_cell_position (cfg : LayoutConfig) (index : Int) : Int × Int :=
  (Int.fmod (Int.fdiv index cfg.cols) cfg.rows, Int.fmod index cfg.cols)

/-- LayoutCalculator.calculate_dest_rect from src/core/layout.py. -/
def calculate_dest_rect (cfg : LayoutConfig) (src_rect : Rect) (index : Int) : Rect :=
  let row : ℚ := ((get_cell_position cfg index).1 : ℚ)
  let col : ℚ := ((get_cell_position cfg index).2 : ℚ)
  let cell_w := (get_cell_size cfg).1
  let cell_h := (get_cell_size cfg).2
  let scale := calculate_scale cfg src_rect
  let scaled_w := src_rect.width * scale
  let scaled_h := src_rect.height * scale
  let cell_x := cfg.margin + col * (cell_w + cfg.gap)
  let cell_y := cfg.margin + row * (cell_h + cfg.gap)
  let x0 := cell_x + (cell_w - scaled_w) / 2
  let y0 := cell_y + (cell_h - scaled_h) / 2
  ⟨x0, y0, x0 + scaled_w, y0 + scaled_h⟩

/-- LayoutCalculator.items_per_page: rows times cols. -/
def items_per_page (cfg : LayoutConfig) : Int := cfg.rows * cfg.cols

/-- The rectangle of the grid cell addressed by an index: cell origin from
margin + (row, col) * (cell + gap), extended by the cell size.  Assembled
from the same formulas calculate_dest_rect uses for its cell origin. -/
def cellRect (cfg : LayoutConfig) (index : Int) : Rect :=
  let row : ℚ := ((get_cell_position cfg index).1 : ℚ)
  let col : ℚ := ((get_cell_position cfg index).2 : ℚ)
  let cell_w := (get_cell_size cfg).1
  let cell_h := (get_cell_size cfg).2
  let cell_x := cfg.margin + col * (cell_w + cfg.gap)
  let cell_y := cfg.margin + row * (cell_h + cfg.gap)
  ⟨cell_x, cell_y, cell_x + cell_w, cell_y + cell_h⟩

end LayoutCalculator

namespace Cropper

/-- Cropper._manual_crop from src/core/cropper.py: scale the normalized
coordinates by the page width/height, then clamp to the page rectangle by
intersection.  The normalized 4-tuple is passed as four components. -/
def manual_crop (page_rect : Rect) (nx0 ny0 nx1 ny1 : ℚ) : Rect :=
  let rect : Rect :=
    ⟨nx0 * page_rect.width, ny0 * page_rect.height,
     nx1 * page_rect.width, ny1 * page_rect.height⟩
  rect.intersect page_rect

/-- Cropper._expand_rect from src/core/cropper.py: grow by margin on all
four sides. -/
def expand_rect (rect : Rect) (margin : ℚ) : Rect :=
  ⟨rect.x0 - margin, rect.y0 - margin, rect.x1 + margin, rect.y1 + margin⟩

/-- Cropper._auto_crop from src/core/cropper.py.  The two detection tiers
query the external PDF engine; their results on the page at hand are passed
in as object_bounds (tier 1, object-based union) and pixel_bounds (tier 2,
pixel-based detection). -/
def auto_crop (object_bounds pixel_bounds page_rect : Rect) (auto_margin : ℚ) : Rect :=
  let rect := object_bounds
  let rect := if rect.IsEmpty ∨ rect.getArea < 100 then pixel_bounds else rect
  if rect.IsEmpty then page_rect
  else (expand_rect rect auto_margin).intersect page_rect

/-- The detection result _auto_crop selects before its fallback test: the
tier-2 result when tier 1 is empty or has area below 100, otherwise the
tier-1 result. -/
def selected_bounds (object_bounds pixel_bounds : Rect) : Rect :=
  if object_bounds.IsEmpty ∨ object_bounds.getArea < 100 then pixel_bounds
  else object_bounds

end Cropper

/-- InvoiceItem from src/core/models.py, restricted to the fields the merge
pipeline consults.  Source paths are abstracted to numeric identifiers. -/
structure Item where
  path : Nat
  page_index : Nat
deriving DecidableEq

/-- Oracle fixing the behaviour of the external PDF engine and of the
caller-supplied cancellation predicate during one run: whether opening the
source at a given path raises, whether the crop-rectangle computation or the
compose call for the item at a given index raises, whether saving the output
raises, and the answer of the cancellation poll at each item index. -/
structure MergeEnv where
  openFails : Nat → Bool
  cropFails : Nat → Bool
  composeFails : Nat → Bool
  saveFails : Bool
  cancel : Nat → Bool

/-- Outcome of a run of MergeExporter.merge_to_pdf, by exit site: the
return True after a successful save (completed), the return False at the
cancellation poll (cancelled), and the return False paths for empty input
or an uncaught exception such as a save failure (failed).  The Python
function itself conflates cancelled and failed into False. -/
inductive MergeResult where
  | completed
  | cancelled
  | failed
deriving DecidableEq

/-- Observable events of a run: output-document lifecycle, pages added,
source handles opened into the run cache (by path, in order of opening),
item indices composed onto the output, and source handles closed. -/
structure RunState where
  outputCreated : Bool
  pages : Nat
  openedPaths : List Nat
  composed : List Nat
  saved : Bool
  outputClosed : Bool
  closedPaths : List Nat
deriving DecidableEq

/-- State before a run: no output document, no pages, empty handle cache. -/
def initState : RunState :=
  { outputCreated := false, pages := 0, openedPaths := [], composed := [],
    saved := false, outputClosed := false, closedPaths := [] }

/-- State of an export run right after the output document is created and
before the item loop starts. -/
def startState : RunState := { initState with outputCreated := true }

/-- State of a preview run after the output document and its single page
are created and before the item loop starts. -/
def previewStart : RunState := { initState with outputCreated := true, pages := 1 }

/-- The two per-item stages after the source is available, shared verbatim
by merge_to_pdf and generate_preview_page: compute the crop rectangle
(skip the item if it raises), compute the destination rectangle (pure),
compose onto the current page (skip the item if it raises). -/
def itemStages (env : MergeEnv) (idx : Nat) (s : RunState) : RunState :=
  if env.cropFails idx then s
  else if env.composeFails idx then s
  else { s with composed := s.composed ++ [idx] }

/-- The open-or-reuse stage shared by both loops: reuse a cached handle, or
open the source into the cache, skipping the item (second component false)
when opening raises. -/
def openStage (env : MergeEnv) (item : Item) (s : RunState) : RunState × Bool :=
  if item.path ∈ s.openedPaths then (s, true)
  else if env.openFails item.path then (s, false)
  else ({ s with openedPaths := s.openedPaths ++ [item.path] }, true)

/-- One full per-item body shared by both loops aside from page management:
open-or-reuse the source, then, unless the item was skipped at the open
stage, run the crop/compose stages. -/
def previewBody (env : MergeEnv) (idx : Nat) (item : Item) (s : RunState) : RunState :=
  match openStage env item s with
  | (s2, true) => itemStages env idx s2
  | (s2, false) => s2

/-- Page management of the export loop: a fresh output page is added at
every items_per_page boundary, before the item's own stages run. -/
def addPageIfNeeded (ipp idx : Nat) (s : RunState) : RunState :=
  if idx % ipp == 0 then { s with pages := s.pages + 1 } else s

/-- One iteration of the export loop once the cancellation poll has
answered false: page management followed by the shared per-item body. -/
def mergeBody (env : MergeEnv) (ipp idx : Nat) (item : Item) (s : RunState) : RunState :=
  previewBody env idx item (addPageIfNeeded ipp idx s)

/-- The per-item loop of MergeExporter.merge_to_pdf over the remaining
items, carrying the enumerate index.  Returns the state at loop exit and
whether the exit was the cancellation return.  Per iteration: poll the
cancellation predicate and return immediately if it answers true, leaving
the state as it stands; otherwise run the iteration body. -/
def mergeLoop (env : MergeEnv) (ipp : Nat) (idx : Nat) :
    List Item → RunState → RunState × Bool
  | [], s => (s, false)
  | item :: rest, s =>
    if env.cancel idx then (s, true)
    else mergeLoop env ipp (idx + 1) rest (mergeBody env ipp idx item s)

/-- MergeExporter.merge_to_pdf from src/core/merger.py.  Empty input fails
before any output document is created.  Otherwise the output document is
created, the item loop runs, and on normal loop exit the output is saved
(a save failure is caught by the outer handler and fails the run with no
handle closed), the output handle is closed and every cached source handle
is closed.  The cancellation return leaves the state of the loop as is. -/
def merge_to_pdf (env : MergeEnv) (cfg : LayoutConfig) (items : List Item) :
    RunState × MergeResult :=
  if items.isEmpty then (initState, MergeResult.failed)
  else
    let ipp := (LayoutCalculator.items_per_page cfg).toNat
    match mergeLoop env ipp 0 items startState with
    | (s, true) => (s, MergeResult.cancelled)
    | (s, false) =>
      if env.saveFails then (s, MergeResult.failed)
      else
        ({ s with saved := true, outputClosed := true, closedPaths := s.openedPaths },
         MergeResult.completed)

/-- Python list slicing lst[:k]: the first k elements for k >= 0, and all
but the last |k| elements for k < 0. -/
def pyTake (l : List Item) (k : Int) : List Item :=
  if 0 ≤ k then l.take k.toNat else l.take (l.length - (-k).toNat)

/-- The per-item loop of MergeExporter.generate_preview_page: identical
per-item logic, but no cancellation poll and a single output page created
before the loop. -/
def previewLoop (env : MergeEnv) (idx : Nat) : List Item → RunState → RunState
  | [], s => s
  | item :: rest, s => previewLoop env (idx + 1) rest (previewBody env idx item s)

/-- MergeExporter.generate_preview_page from src/core/merger.py.  none for
empty input; otherwise the items are sliced to min(max_items, len(items))
with max_items defaulting to items_per_page, one output page is created,
the per-item loop runs, all cached source handles are closed, and the
composed in-memory document state is returned. -/
def generate_preview_page (env : MergeEnv) (cfg : LayoutConfig) (items : List Item)
    (max_items : Option Int) : Option RunState :=
  if items.isEmpty then none
  else
    let ipp : Int := LayoutCalculator.items_per_page cfg
    let mi := max_items.getD ipp
    let preview_items := pyTake items (min mi (items.length : Int))
    let s := previewLoop env 0 preview_items previewStart
    some { s with closedPaths := s.openedPaths }

/-- The indices of the items a run starting at enumerate index idx places:
those whose source opens (or was cacheable by an earlier success on the same
path) and whose crop and compose stages both succeed. -/
def okIndices (env : MergeEnv) (idx : Nat) : List Item → List Nat
  | [] => []
  | item :: rest =>
    (if env.openFails item.path then ([] : List Nat)
     else if env.cropFails idx then []
     else if env.composeFails idx then []
     else [idx]) ++ okIndices env (idx + 1) rest

/-! Concrete inputs used by counterexamples and witnesses. -/

/-- The default 2 x 2 portrait grid with margin 20 and gap 10. -/
def cfg22 : LayoutConfig :=
  { rows := 2, cols := 2, a4_orientation := Orientation.portrait, margin := 20, gap := 10 }

/-- An engine run in which no operation fails and cancellation is never
requested. -/
def envAllOk : MergeEnv :=
  { openFails := fun _ => false, cropFails := fun _ => false,
    composeFails := fun _ => false, saveFails := false, cancel := fun _ => false }

/-- A run whose cancellation predicate first answers true at the second
poll (item index 1). -/
def envCancelSecond : MergeEnv := { envAllOk with cancel := fun i => i == 1 }

/-- A run whose cancellation predicate answers true from the first poll. -/
def envCancelAlways : MergeEnv := { envAllOk with cancel := fun _ => true }

/-- A run in which opening the source at path 1 raises and everything else
succeeds. -/
def envOpenFailsOn1 : MergeEnv := { envAllOk with openFails := fun p => p == 1 }

/-- Two items on distinct source paths. -/
def items2 : List Item := [⟨0, 0⟩, ⟨1, 0⟩]

/-- Three items on distinct source paths. -/
def items3 : List Item := [⟨0, 0⟩, ⟨1, 0⟩, ⟨2, 0⟩]

/-- Five items on distinct source paths. -/
def items5 : List Item := [⟨0, 0⟩, ⟨1, 0⟩, ⟨2, 0⟩, ⟨3, 0⟩, ⟨4, 0⟩]

/-! Invariance lemmas for the per-item stages, and the loop inductions. -/

/-- The crop/compose stages leave the handle cache untouched. -/
theorem itemStages_openedPaths (env : MergeEnv) (idx : Nat) (s : RunState) :
    (itemStages env idx s).openedPaths = s.openedPaths := by
  unfold itemStages
  split
  · rfl
  · split
    · rfl
    · rfl

/-- The crop/compose stages never touch the page counter. -/
theorem itemStages_pages (env : MergeEnv) (idx : Nat) (s : RunState) :
    (itemStages env idx s).pages = s.pages := by
  unfold itemStages
  split
  · rfl
  · split
    · rfl
    · rfl

/-- Composition record of the crop/compose stages: the item index is
appended exactly when neither stage fails. -/
theorem itemStages_composed (env : MergeEnv) (idx : Nat) (s : RunState) :
    (itemStages env idx s).composed =
      s.composed ++
        (if env.cropFails idx then [] else if env.composeFails idx then [] else [idx]) := by
  unfold itemStages
  by_cases h1 : env.cropFails idx = true
  · rw [if_pos h1, if_pos h1, List.append_nil]
  · rw [if_neg h1, if_neg h1]
    by_cases h2 : env.composeFails idx = true
    · rw [if_pos h2, if_pos h2, List.append_nil]
    · rw [if_neg h2, if_neg h2]

/-- Page management leaves the handle cache untouched. -/
theorem addPageIfNeeded_openedPaths (ipp idx : Nat) (s : RunState) :
    (addPageIfNeeded ipp idx s).openedPaths = s.openedPaths := by
  unfold addPageIfNeeded
  split
  · rfl
  · rfl

/-- Page management leaves the composition record untouched. -/
theorem addPageIfNeeded_composed (ipp idx : Nat) (s : RunState) :
    (addPageIfNeeded ipp idx s).composed = s.composed := by
  unfold addPageIfNeeded
  split
  · rfl
  · rfl

/-- The open-or-reuse stage does not compose anything. -/
theorem openStage_composed (env : MergeEnv) (item : Item) (s : RunState) :
    (openStage env item s).1.composed = s.composed := by
  unfold openStage
  split
  · rfl
  · split
    · rfl
    · rfl

/-- The open-or-reuse stage never touches the page counter. -/
theorem openStage_pages (env : MergeEnv) (item : Item) (s : RunState) :
    (openStage env item s).1.pages = s.pages := by
  unfold openStage
  split
  · rfl
  · split
    · rfl
    · rfl

/-- Any path in the cache after the open-or-reuse stage was already cached
or is the item's own path, freshly opened because opening succeeded. -/
theorem openStage_opened (env : MergeEnv) (item : Item) (s : RunState) :
    ∀ p, p ∈ (openStage env item s).1.openedPaths →
      p ∈ s.openedPaths ∨ (p = item.path ∧ env.openFails item.path = false) := by
  intro p hp
  unfold openStage at hp
  by_cases hmem : item.path ∈ s.openedPaths
  · rw [if_pos hmem] at hp
    exact Or.inl hp
  · rw [if_neg hmem] at hp
    by_cases hof : env.openFails item.path = true
    · rw [if_pos hof] at hp
      exact Or.inl hp
    · rw [if_neg hof] at hp
      simp only [List.mem_append, List.mem_singleton] at hp
      rcases hp with h | h
      · exact Or.inl h
      · exact Or.inr ⟨h, Bool.eq_false_iff.mpr hof⟩

/-- The per-item body preserves the page counter. -/
theorem previewBody_pages (env : MergeEnv) (idx : Nat) (item : Item) (s : RunState) :
    (previewBody env idx item s).pages = s.pages := by
  unfold previewBody
  rcases hos : openStage env item s with ⟨s2, b⟩
  have h2 : s2.pages = s.pages := by
    have := openStage_pages env item s
    rw [hos] at this
    exact this
  cases b
  · exact h2
  · rw [itemStages_pages, h2]

/-- Any path cached after the per-item body was already cached or is the
item's own path with a succeeding open. -/
theorem previewBody_opened (env : MergeEnv) (idx : Nat) (item : Item) (s : RunState) :
    ∀ p, p ∈ (previewBody env idx item s).openedPaths →
      p ∈ s.openedPaths ∨ (p = item.path ∧ env.openFails item.path = false) := by
  intro p hp
  unfold previewBody at hp
  rcases hos : openStage env item s with ⟨s2, b⟩
  rw [hos] at hp
  have hsub := openStage_opened env item s
  rw [hos] at hsub
  cases b
  · exact hsub p hp
  · rw [itemStages_openedPaths] at hp
    exact hsub p hp

/-- The per-item body grows the composition record by at most one index. -/
theorem previewBody_composed_len (env : MergeEnv) (idx : Nat) (item : Item) (s : RunState) :
    (previewBody env idx item s).composed.length ≤ s.composed.length + 1 := by
  unfold previewBody
  rcases hos : openStage env item s with ⟨s2, b⟩
  have h2 : s2.composed = s.composed := by
    have := openStage_composed env item s
    rw [hos] at this
    exact this
  cases b
  · rw [h2]
    exact Nat.le_succ _
  · rw [itemStages_composed, h2, List.length_append]
    have : (if env.cropFails idx then ([] : List Nat)
        else if env.composeFails idx then [] else [idx]).length ≤ 1 := by
      split
      · exact Nat.zero_le _
      · split
        · exact Nat.zero_le _
        · exact le_refl _
    omega

/-- Composition record of the per-item body, under the cache invariant that
every cached path opened successfully: the index is appended exactly when
all three fallible stages succeed for the item. -/
theorem previewBody_composed (env : MergeEnv) (idx : Nat) (item : Item) (s : RunState)
    (hinv : ∀ p, p ∈ s.openedPaths → env.openFails p = false) :
    (previewBody env idx item s).composed =
      s.composed ++
        (if env.openFails item.path then []
         else if env.cropFails idx then []
         else if env.composeFails idx then [] else [idx]) := by
  unfold previewBody openStage
  by_cases hof : env.openFails item.path = true
  · have hmem : item.path ∉ s.openedPaths := by
      intro hm
      rw [hinv item.path hm] at hof
      exact absurd hof (by decide)
    rw [if_neg hmem, if_pos hof, if_pos hof, List.append_nil]
  · rw [if_neg hof]
    by_cases hmem : item.path ∈ s.openedPaths
    · rw [if_pos hmem, itemStages_composed, if_neg hof]
    · rw [if_neg hmem, if_neg hof, itemStages_composed]

/-- Composition record of one export-loop iteration body, under the cache
invariant. -/
theorem mergeBody_composed (env : MergeEnv) (ipp idx : Nat) (item : Item) (s : RunState)
    (hinv : ∀ p, p ∈ s.openedPaths → env.openFails p = false) :
    (mergeBody env ipp idx item s).composed =
      s.composed ++
        (if env.openFails item.path then []
         else if env.cropFails idx then []
         else if env.composeFails idx then [] else [idx]) := by
  unfold mergeBody
  rw [previewBody_composed, addPageIfNeeded_composed]
  intro p hp
  rw [addPageIfNeeded_openedPaths] at hp
  exact hinv p hp

/-- The export-loop body preserves the cache invariant. -/
theorem mergeBody_inv (env : MergeEnv) (ipp idx : Nat) (item : Item) (s : RunState)
    (hinv : ∀ p, p ∈ s.openedPaths → env.openFails p = false) :
    ∀ p, p ∈ (mergeBody env ipp idx item s).openedPaths → env.openFails p = false := by
  intro p hp
  unfold mergeBody at hp
  rcases previewBody_opened env idx item _ p hp with h | ⟨hp1, hp2⟩
  · rw [addPageIfNeeded_openedPaths] at h
    exact hinv p h
  · rw [hp1]
    exact hp2

/-- A cancellation-free export loop exits normally and composes exactly the
indices of the items whose three stages all succeed, in item order. -/
theorem mergeLoop_run (env : MergeEnv) (ipp : Nat) (l : List Item) :
    ∀ (idx : Nat) (s : RunState),
      (∀ j, j < l.length → env.cancel (idx + j) = false) →
      (∀ p, p ∈ s.openedPaths → env.openFails p = false) →
      (mergeLoop env ipp idx l s).2 = false ∧
      (mergeLoop env ipp idx l s).1.composed = s.composed ++ okIndices env idx l := by
  induction l with
  | nil =>
    intro idx s hc hinv
    exact ⟨rfl, (List.append_nil _).symm⟩
  | cons item rest ih =>
    intro idx s hc hinv
    have hc0 : env.cancel idx = false := by
      have h := hc 0 (by simp)
      simpa using h
    have hcs : ∀ j, j < rest.length → env.cancel (idx + 1 + j) = false := by
      intro j hj
      have h := hc (j + 1) (by simpa using Nat.succ_lt_succ hj)
      have he : idx + (j + 1) = idx + 1 + j := by omega
      rw [he] at h
      exact h
    have hinv2 := mergeBody_inv env ipp idx item s hinv
    obtain ⟨h1, h2⟩ := ih (idx + 1) (mergeBody env ipp idx item s) hcs hinv2
    rw [mergeLoop]
    rw [if_neg (by rw [hc0]; exact Bool.false_ne_true)]
    refine ⟨h1, ?_⟩
    rw [h2, mergeBody_composed env ipp idx item s hinv, List.append_assoc]
    rfl

/-- The preview loop preserves the page counter. -/
theorem previewLoop_pages (env : MergeEnv) (l : List Item) :
    ∀ (idx : Nat) (s : RunState), (previewLoop env idx l s).pages = s.pages := by
  induction l with
  | nil => intro idx s; rfl
  | cons item rest ih =>
    intro idx s
    rw [previewLoop, ih, previewBody_pages]

/-- The preview loop composes at most one item per input item. -/
theorem previewLoop_composed_len (env : MergeEnv) (l : List Item) :
    ∀ (idx : Nat) (s : RunState),
      (previewLoop env idx l s).composed.length ≤ s.composed.length + l.length := by
  induction l with
  | nil => intro idx s; exact le_refl _
  | cons item rest ih =>
    intro idx s
    rw [previewLoop]
    have h1 := ih (idx + 1) (previewBody env idx item s)
    have h2 := previewBody_composed_len env idx item s
    simp only [List.length_cons]
    omega

/-! Theorems for the claims. -/

/-- Claim C1 (code bug evidence): a two-item run whose cancellation
predicate answers true at the second poll returns the cancellation outcome
with the first item's source handle opened into the run cache and no handle
closed: merge_to_pdf does not close cached source handles on the
cancellation exit path, contradicting the claim that every handle opened
into the run cache is closed on every exit path. -/
theorem merge_cancel_leaks_cached_handle :
    (merge_to_pdf envCancelSecond cfg22 items2).2 = MergeResult.cancelled ∧
    (merge_to_pdf envCancelSecond cfg22 items2).1.openedPaths = [0] ∧
    (merge_to_pdf envCancelSecond cfg22 items2).1.closedPaths = [] := by
  decide

/-- Claim C2 (counterexample): with the 2 x 2 grid (items_per_page = 4),
five items and a caller-supplied max_items of 5, generate_preview_page
composes five items, exceeding items_per_page: the caller-specified count
is not clamped to items_per_page and can raise the bound. -/
theorem preview_caller_count_exceeds_capacity :
    (generate_preview_page envAllOk cfg22 items5 (some 5)).map
        (fun s => s.composed) = some [0, 1, 2, 3, 4] ∧
    (LayoutCalculator.items_per_page cfg22).toNat = 4 := by
  decide

/-- Claim C4: for the empty item list, merge_to_pdf returns the failure
result immediately, with no output document created and nothing saved. -/
theorem merge_empty_input_fails (env : MergeEnv) (cfg : LayoutConfig) :
    (merge_to_pdf env cfg []).2 = MergeResult.failed ∧
    (merge_to_pdf env cfg []).1.outputCreated = false ∧
    (merge_to_pdf env cfg []).1.saved = false :=
  ⟨rfl, rfl, rfl⟩

/-- Claim C5: on a non-empty item list whose cancellation predicate answers
true at the first poll, the run reports the cancellation outcome having
opened no source handle, composed nothing and added no page. -/
theorem merge_cancel_at_first_poll (env : MergeEnv) (cfg : LayoutConfig)
    (items : List Item) (hne : items ≠ []) (hc : env.cancel 0 = true) :
    (merge_to_pdf env cfg items).2 = MergeResult.cancelled ∧
    (merge_to_pdf env cfg items).1.openedPaths = [] ∧
    (merge_to_pdf env cfg items).1.composed = [] ∧
    (merge_to_pdf env cfg items).1.pages = 0 := by
  cases items with
  | nil => exact absurd rfl hne
  | cons it rest => simp [merge_to_pdf, mergeLoop, hc, startState, initState]

/-- Claim C5 witness: a five-item run with an always-true cancellation
predicate cancels with no handle opened, nothing composed, no page added. -/
theorem merge_cancel_at_first_poll_witness :
    items5 ≠ [] ∧ envCancelAlways.cancel 0 = true ∧
    ((merge_to_pdf envCancelAlways cfg22 items5).2 = MergeResult.cancelled ∧
     (merge_to_pdf envCancelAlways cfg22 items5).1.openedPaths = [] ∧
     (merge_to_pdf envCancelAlways cfg22 items5).1.composed = [] ∧
     (merge_to_pdf envCancelAlways cfg22 items5).1.pages = 0) :=
  ⟨by decide, rfl, merge_cancel_at_first_poll envCancelAlways cfg22 items5 (by decide) rfl⟩

/-- Claim C3: for any manual region with 0 <= x0 < x1 <= 1 and
0 <= y0 < y1 <= 1, the rectangle resolved by the manual crop (normalized
region scaled by page width/height, then intersected with the page
rectangle) is contained within the page rectangle. -/
theorem manual_crop_contained (page : Rect) (nx0 ny0 nx1 ny1 : ℚ)
    (hx0 : 0 ≤ nx0) (hx01 : nx0 < nx1) (hx1 : nx1 ≤ 1)
    (hy0 : 0 ≤ ny0) (hy01 : ny0 < ny1) (hy1 : ny1 ≤ 1) :
    Rect.contains page (Cropper.manual_crop page nx0 ny0 nx1 ny1) :=
  ⟨le_max_right _ _, le_max_right _ _, min_le_right _ _, min_le_right _ _⟩

/-- Claim C3 witness: the manual region (1/10, 1/5, 9/10, 4/5) on an A4
portrait page resolves within the page rectangle. -/
theorem manual_crop_contained_witness :
    ((0 : ℚ) ≤ 1/10 ∧ (1/10 : ℚ) < 9/10 ∧ (9/10 : ℚ) ≤ 1 ∧
     (0 : ℚ) ≤ 1/5 ∧ (1/5 : ℚ) < 4/5 ∧ (4/5 : ℚ) ≤ 1) ∧
    Rect.contains (pageRect 595.27 841.89)
      (Cropper.manual_crop (pageRect 595.27 841.89) (1/10) (1/5) (9/10) (4/5)) :=
  ⟨by norm_num,
   manual_crop_contained (pageRect 595.27 841.89) (1/10) (1/5) (9/10) (4/5)
     (by norm_num) (by norm_num) (by norm_num) (by norm_num) (by norm_num) (by norm_num)⟩

/-- Claim C6: a run without cancellation and with a succeeding save
completes with the success outcome and composes exactly the items whose
three fallible stages (open-or-reuse, crop, compose) all succeed, in item
order — an item failing any stage is skipped and all other items are still
processed. -/
theorem merge_skips_failed_items_only (env : MergeEnv) (cfg : LayoutConfig)
    (items : List Item) (hne : items ≠ [])
    (hc : ∀ j, j < items.length → env.cancel j = false)
    (hs : env.saveFails = false) :
    (merge_to_pdf env cfg items).2 = MergeResult.completed ∧
    (merge_to_pdf env cfg items).1.composed = okIndices env 0 items := by
  have hc0 : ∀ j, j < items.length → env.cancel (0 + j) = false := by
    intro j hj
    rw [Nat.zero_add]
    exact hc j hj
  have hstart : ∀ p, p ∈ startState.openedPaths → env.openFails p = false := by
    intro p hp
    exact absurd hp (by simp [startState, initState])
  have hrun := mergeLoop_run env (LayoutCalculator.items_per_page cfg).toNat items 0
    startState hc0 hstart
  cases items with
  | nil => exact absurd rfl hne
  | cons a t =>
    rcases hres : mergeLoop env (LayoutCalculator.items_per_page cfg).toNat 0 (a :: t)
        startState with ⟨s, b⟩
    rw [hres] at hrun
    obtain ⟨h1, h2⟩ := hrun
    simp only at h1
    subst h1
    simp only [merge_to_pdf, List.isEmpty_cons, Bool.false_eq_true, if_false]
    rw [hres]
    simp only [hs, Bool.false_eq_true, if_false]
    refine ⟨trivial, ?_⟩
    simpa [startState, initState] using h2

/-- Claim C6 witness: a three-item run in which the second item's source
cannot be opened completes with items 1 and 3 (indices 0 and 2) placed. -/
theorem merge_skips_failed_items_only_witness :
    (merge_to_pdf envOpenFailsOn1 cfg22 items3).2 = MergeResult.completed ∧
    (merge_to_pdf envOpenFailsOn1 cfg22 items3).1.composed = [0, 2] := by
  have h := merge_skips_failed_items_only envOpenFailsOn1 cfg22 items3 (by decide)
    (by intro j hj; rfl) rfl
  refine ⟨h.1, ?_⟩
  rw [h.2]
  decide

/-- Claim C2 (amended): generate_preview_page succeeds on non-empty input
and composes at most as many items as the Python slice
items[:min(max_items, len(items))] holds — with max_items defaulting to
items_per_page when the caller passes none — all onto the single output
page; only the default is bounded by items_per_page, a caller-supplied
count bounds by itself and is not clamped to items_per_page. -/
theorem preview_composes_at_most_slice (env : MergeEnv) (cfg : LayoutConfig)
    (items : List Item) (mi : Option Int) (hne : items ≠ []) (hv : cfg.Valid) :
    ∃ s, generate_preview_page env cfg items mi = some s ∧
      s.composed.length ≤
        (pyTake items (min (mi.getD (LayoutCalculator.items_per_page cfg))
          (items.length : Int))).length ∧
      s.pages = 1 ∧
      (mi = none → (s.composed.length : Int) ≤ LayoutCalculator.items_per_page cfg) := by
  cases items with
  | nil => exact absurd rfl hne
  | cons a t =>
    have hcomp := previewLoop_composed_len env
      (pyTake (a :: t) (min (mi.getD (LayoutCalculator.items_per_page cfg)) ((a :: t).length : Int)))
      0 previewStart
    have hpag := previewLoop_pages env
      (pyTake (a :: t) (min (mi.getD (LayoutCalculator.items_per_page cfg)) ((a :: t).length : Int)))
      0 previewStart
    refine ⟨_, rfl, ?_, ?_, ?_⟩
    · simpa [previewStart, initState] using hcomp
    · simpa [previewStart, initState] using hpag
    · intro hmi
      subst hmi
      have hipp : 0 < LayoutCalculator.items_per_page cfg :=
        mul_pos hv.1 hv.2.1
      have hlen : (pyTake (a :: t) (min (LayoutCalculator.items_per_page cfg)
          ((a :: t).length : Int))).length ≤ (LayoutCalculator.items_per_page cfg).toNat := by
        unfold pyTake
        rw [if_pos (le_min (le_of_lt hipp) (Int.ofNat_nonneg _))]
        rw [List.length_take]
        have h := Int.toNat_le_toNat (min_le_left (LayoutCalculator.items_per_page cfg)
          (((a :: t).length : Nat) : Int))
        omega
      have hcl : (previewLoop env 0 (pyTake (a :: t)
          (min ((Option.none (α := Int)).getD (LayoutCalculator.items_per_page cfg))
            ((a :: t).length : Int))) previewStart).composed.length ≤
          (LayoutCalculator.items_per_page cfg).toNat := by
        refine le_trans ?_ hlen
        simpa [previewStart, initState] using hcomp
      simp only [Option.getD] at hcl ⊢
      omega

/-- Claim C2 witness: five items with caller count 5 on the 2 x 2 grid
preview successfully within the amended bound. -/
theorem preview_composes_at_most_slice_witness :
    items5 ≠ [] ∧ cfg22.Valid ∧
    (∃ s, generate_preview_page envAllOk cfg22 items5 (some 5) = some s ∧
      s.composed.length ≤
        (pyTake items5 (min ((Option.some (5 : Int)).getD (LayoutCalculator.items_per_page cfg22))
          (items5.length : Int))).length ∧
      s.pages = 1 ∧
      (Option.some (5 : Int) = none →
        (s.composed.length : Int) ≤ LayoutCalculator.items_per_page cfg22)) :=
  ⟨by decide, by decide,
   preview_composes_at_most_slice envAllOk cfg22 items5 (some 5) (by decide) (by decide)⟩

/-- Claim C9 (amended): the pixel tier is consulted exactly when the object
union is empty or has area below 100 (otherwise the result does not depend
on the pixel tier at all); the full-page rectangle is returned unmodified
exactly when the selected detection result is empty — which requires only
that the pixel tier ran and returned empty, not that the object union be
empty; a nonempty selected result is expanded by auto_margin and then
intersected with the page rectangle, hence never exceeds page bounds. -/
theorem auto_crop_three_tier_chain (o p page : Rect) (m : ℚ) :
    (¬ o.IsEmpty → ¬ o.getArea < 100 →
      ∀ q : Rect, Cropper.auto_crop o p page m = Cropper.auto_crop o q page m) ∧
    ((Cropper.selected_bounds o p).IsEmpty → Cropper.auto_crop o p page m = page) ∧
    (¬ (Cropper.selected_bounds o p).IsEmpty →
      Cropper.auto_crop o p page m =
        (Cropper.expand_rect (Cropper.selected_bounds o p) m).intersect page ∧
      Rect.contains page (Cropper.auto_crop o p page m)) := by
  refine ⟨?_, ?_, ?_⟩
  · intro h1 h2 q
    have hcond : ¬ (o.IsEmpty ∨ o.getArea < 100) := by
      rintro (h | h)
      · exact h1 h
      · exact h2 h
    simp only [Cropper.auto_crop]
    rw [if_neg hcond, if_neg hcond]
  · intro he
    simp only [Cropper.selected_bounds] at he
    simp only [Cropper.auto_crop]
    rw [if_pos he]
  · intro he
    simp only [Cropper.selected_bounds] at he
    have hform : Cropper.auto_crop o p page m =
        (Cropper.expand_rect (Cropper.selected_bounds o p) m).intersect page := by
      simp only [Cropper.auto_crop, Cropper.selected_bounds]
      rw [if_neg he]
    refine ⟨hform, ?_⟩
    rw [hform]
    exact ⟨le_max_right _ _, le_max_right _ _, min_le_right _ _, min_le_right _ _⟩

/-- Claim C9 witness: a large object union (300 x 300, area at least 100)
is selected, expanded by margin 10 and clamped to an A4-like page, the
result staying within page bounds. -/
theorem auto_crop_three_tier_chain_witness :
    ¬ (Cropper.selected_bounds ⟨0, 0, 300, 300⟩ ⟨0, 0, 0, 0⟩).IsEmpty ∧
    Cropper.auto_crop ⟨0, 0, 300, 300⟩ ⟨0, 0, 0, 0⟩ ⟨0, 0, 595, 842⟩ 10 =
      (Cropper.expand_rect (Cropper.selected_bounds ⟨0, 0, 300, 300⟩ ⟨0, 0, 0, 0⟩) 10).intersect
        ⟨0, 0, 595, 842⟩ ∧
    Rect.contains ⟨0, 0, 595, 842⟩
      (Cropper.auto_crop ⟨0, 0, 300, 300⟩ ⟨0, 0, 0, 0⟩ ⟨0, 0, 595, 842⟩ 10) := by
  have hcond : ¬ (Rect.IsEmpty ⟨0, 0, 300, 300⟩ ∨ Rect.getArea ⟨0, 0, 300, 300⟩ < 100) := by
    norm_num [Rect.IsEmpty, Rect.getArea, Rect.width, Rect.height, max_def]
  have hne : ¬ (Cropper.selected_bounds ⟨0, 0, 300, 300⟩ ⟨0, 0, 0, 0⟩).IsEmpty := by
    simp only [Cropper.selected_bounds]
    rw [if_neg hcond]
    norm_num [Rect.IsEmpty]
  have h := (auto_crop_three_tier_chain ⟨0, 0, 300, 300⟩ ⟨0, 0, 0, 0⟩ ⟨0, 0, 595, 842⟩ 10).2.2 hne
  exact ⟨hne, h.1, h.2⟩

/-- Claim C8: for a source rectangle of positive width and height (and
positive cell dimensions), the scale factor is min(cell_w/src_w,
cell_h/src_h) applied to both axes, so the scaled dimensions preserve the
source aspect ratio exactly; for a non-positive source dimension the scale
factor is 1. -/
theorem calculate_scale_preserves_aspect (cfg : LayoutConfig) (src : Rect) :
    (0 < src.width → 0 < src.height →
     0 < (LayoutCalculator.get_cell_size cfg).1 → 0 < (LayoutCalculator.get_cell_size cfg).2 →
      LayoutCalculator.calculate_scale cfg src =
        min ((LayoutCalculator.get_cell_size cfg).1 / src.width)
            ((LayoutCalculator.get_cell_size cfg).2 / src.height) ∧
      src.width * LayoutCalculator.calculate_scale cfg src /
          (src.height * LayoutCalculator.calculate_scale cfg src) =
        src.width / src.height) ∧
    (src.width ≤ 0 ∨ src.height ≤ 0 → LayoutCalculator.calculate_scale cfg src = 1) := by
  constructor
  · intro hw hh hcw hch
    have hguard : ¬ (src.width ≤ 0 ∨ src.height ≤ 0) := by
      rintro (h | h)
      · linarith
      · linarith
    have hs : LayoutCalculator.calculate_scale cfg src =
        min ((LayoutCalculator.get_cell_size cfg).1 / src.width)
            ((LayoutCalculator.get_cell_size cfg).2 / src.height) := by
      simp only [LayoutCalculator.calculate_scale]
      rw [if_neg hguard]
    refine ⟨hs, ?_⟩
    have hpos : 0 < LayoutCalculator.calculate_scale cfg src := by
      rw [hs]
      exact lt_min (div_pos hcw hw) (div_pos hch hh)
    rw [mul_comm src.width _, mul_comm src.height _,
      mul_div_mul_left _ _ (ne_of_gt hpos)]
  · intro h
    simp only [LayoutCalculator.calculate_scale]
    rw [if_pos h]

/-- Claim C8 witness: a 100 x 200 source on the default 2 x 2 grid scales
by the common factor with the aspect ratio preserved exactly. -/
theorem calculate_scale_preserves_aspect_witness :
    ((0 : ℚ) < Rect.width ⟨0, 0, 100, 200⟩ ∧ (0 : ℚ) < Rect.height ⟨0, 0, 100, 200⟩ ∧
     0 < (LayoutCalculator.get_cell_size cfg22).1 ∧ 0 < (LayoutCalculator.get_cell_size cfg22).2) ∧
    (LayoutCalculator.calculate_scale cfg22 ⟨0, 0, 100, 200⟩ =
      min ((LayoutCalculator.get_cell_size cfg22).1 / Rect.width ⟨0, 0, 100, 200⟩)
          ((LayoutCalculator.get_cell_size cfg22).2 / Rect.height ⟨0, 0, 100, 200⟩) ∧
     Rect.width ⟨0, 0, 100, 200⟩ * LayoutCalculator.calculate_scale cfg22 ⟨0, 0, 100, 200⟩ /
        (Rect.height ⟨0, 0, 100, 200⟩ * LayoutCalculator.calculate_scale cfg22 ⟨0, 0, 100, 200⟩) =
      Rect.width ⟨0, 0, 100, 200⟩ / Rect.height ⟨0, 0, 100, 200⟩) := by
  have hw : (0 : ℚ) < Rect.width ⟨0, 0, 100, 200⟩ := by
    norm_num [Rect.width, max_def]
  have hh : (0 : ℚ) < Rect.height ⟨0, 0, 100, 200⟩ := by
    norm_num [Rect.height, max_def]
  have hcw : (0 : ℚ) < (LayoutCalculator.get_cell_size cfg22).1 := by
    norm_num [LayoutCalculator.get_cell_size, LayoutConfig.page_size, cfg22]
  have hch : (0 : ℚ) < (LayoutCalculator.get_cell_size cfg22).2 := by
    norm_num [LayoutCalculator.get_cell_size, LayoutConfig.page_size, cfg22]
  exact ⟨⟨hw, hh, hcw, hch⟩,
    (calculate_scale_preserves_aspect cfg22 ⟨0, 0, 100, 200⟩).1 hw hh hcw hch⟩

/-- Decomposition of an integer against a positive product modulus: the
row/column arithmetic of the grid is unchanged by first reducing the index
modulo rows * cols. -/
theorem emod_ediv_periodic (r c i : Int) (hc : 0 < c) :
    i / c % r = i % (r * c) / c % r ∧ i % c = i % (r * c) % c := by
  constructor
  · have hq : i % (r * c) + c * (r * (i / (r * c))) = i := by
      have h := Int.ediv_add_emod i (r * c)
      linear_combination h
    calc i / c % r
        = (i % (r * c) + c * (r * (i / (r * c)))) / c % r := by rw [hq]
      _ = (i % (r * c) / c + r * (i / (r * c))) % r := by
          rw [Int.add_mul_ediv_left _ _ (ne_of_gt hc)]
      _ = i % (r * c) / c % r := Int.add_mul_emod_self_left _ _ _
  · exact (Int.emod_emod_of_dvd i (dvd_mul_left c r)).symm

/-- Claim C7: for every valid LayoutConfig, the cell position mapping is
periodic with period rows * cols: get_cell_position at i equals
get_cell_position at i mod (rows * cols), where mod is Python's fmod. -/
theorem get_cell_position_periodic (cfg : LayoutConfig) (i : Int) (hv : cfg.Valid) :
    LayoutCalculator.get_cell_position cfg i =
      LayoutCalculator.get_cell_position cfg (Int.fmod i (cfg.rows * cfg.cols)) := by
  obtain ⟨hr, hc, -, -⟩ := hv
  have hrc : (0 : Int) ≤ cfg.rows * cfg.cols := le_of_lt (mul_pos hr hc)
  have hcc : (0 : Int) ≤ cfg.cols := le_of_lt hc
  have er : ∀ a : Int, Int.fmod a cfg.rows = a % cfg.rows :=
    fun a => Int.fmod_eq_emod a (le_of_lt hr)
  have ec : ∀ a : Int, Int.fmod a cfg.cols = a % cfg.cols :=
    fun a => Int.fmod_eq_emod a hcc
  have erc : Int.fmod i (cfg.rows * cfg.cols) = i % (cfg.rows * cfg.cols) :=
    Int.fmod_eq_emod i hrc
  have dc : ∀ a : Int, Int.fdiv a cfg.cols = a / cfg.cols :=
    fun a => Int.fdiv_eq_ediv a hcc
  unfold LayoutCalculator.get_cell_position
  rw [erc, er, er, ec, ec, dc, dc, Prod.mk.injEq]
  exact emod_ediv_periodic cfg.rows cfg.cols i hc

/-- Claim C7 witness: in the 2 x 2 grid, indices 1 and 5 resolve to the
same (row, col). -/
theorem get_cell_position_periodic_witness :
    cfg22.Valid ∧
    LayoutCalculator.get_cell_position cfg22 5 = LayoutCalculator.get_cell_position cfg22 1 := by
  refine ⟨by decide, ?_⟩
  have h := get_cell_position_periodic cfg22 5 (by decide)
  have h4 : Int.fmod 5 (cfg22.rows * cfg22.cols) = 1 := by decide
  rw [h4] at h
  exact h

/-- Claim C9 (counterexample): with a nonempty tier-1 result of area 25
(below the 100 threshold) and an empty tier-2 result, _auto_crop returns
the full-page rectangle unmodified although tier 1 is not empty: the
full-page fallback does not require both tiers to be empty. -/
theorem auto_crop_full_page_with_nonempty_tier1 :
    Cropper.auto_crop ⟨0, 0, 5, 5⟩ ⟨0, 0, 0, 0⟩ ⟨0, 0, 595, 842⟩ 10 = ⟨0, 0, 595, 842⟩ ∧
    ¬ Rect.IsEmpty ⟨0, 0, 5, 5⟩ := by
  have hcond : Rect.IsEmpty ⟨0, 0, 5, 5⟩ ∨ Rect.getArea ⟨0, 0, 5, 5⟩ < 100 := by
    right
    norm_num [Rect.getArea, Rect.width, Rect.height, max_def]
  have hempty : Rect.IsEmpty ⟨0, 0, 0, 0⟩ := by norm_num [Rect.IsEmpty]
  constructor
  · simp only [Cropper.auto_crop]
    rw [if_pos hcond, if_pos hempty]
  · norm_num [Rect.IsEmpty]

/-- Claim C10: for a valid LayoutConfig with positive derived cell
dimensions and a source rectangle of positive width and height, the
destination rectangle fits in its cell — scaled dimensions at most the
cell dimensions, with non-negative centering offsets — and the cell, hence
the destination rectangle, lies within the output page rectangle, for
every index. -/
theorem calculate_dest_rect_contained (cfg : LayoutConfig) (src : Rect) (index : Int)
    (hv : cfg.Valid)
    (hcw : 0 < (LayoutCalculator.get_cell_size cfg).1)
    (hch : 0 < (LayoutCalculator.get_cell_size cfg).2)
    (hsw : 0 < src.width) (hsh : 0 < src.height) :
    src.width * LayoutCalculator.calculate_scale cfg src ≤
      (LayoutCalculator.get_cell_size cfg).1 ∧
    src.height * LayoutCalculator.calculate_scale cfg src ≤
      (LayoutCalculator.get_cell_size cfg).2 ∧
    0 ≤ ((LayoutCalculator.get_cell_size cfg).1 -
      src.width * LayoutCalculator.calculate_scale cfg src) / 2 ∧
    0 ≤ ((LayoutCalculator.get_cell_size cfg).2 -
      src.height * LayoutCalculator.calculate_scale cfg src) / 2 ∧
    Rect.contains (LayoutCalculator.cellRect cfg index)
      (LayoutCalculator.calculate_dest_rect cfg src index) ∧
    Rect.contains (pageRect cfg.page_size.1 cfg.page_size.2)
      (LayoutCalculator.calculate_dest_rect cfg src index) := by
  obtain ⟨hr, hcp, hm, hg⟩ := hv
  have hguard : ¬ (src.width ≤ 0 ∨ src.height ≤ 0) := by
    rintro (h | h)
    · linarith
    · linarith
  have hs : LayoutCalculator.calculate_scale cfg src =
      min ((LayoutCalculator.get_cell_size cfg).1 / src.width)
          ((LayoutCalculator.get_cell_size cfg).2 / src.height) := by
    simp only [LayoutCalculator.calculate_scale]
    rw [if_neg hguard]
  have h1 : src.width * LayoutCalculator.calculate_scale cfg src ≤
      (LayoutCalculator.get_cell_size cfg).1 := by
    have hmin := min_le_left ((LayoutCalculator.get_cell_size cfg).1 / src.width)
      ((LayoutCalculator.get_cell_size cfg).2 / src.height)
    have heq : src.width * ((LayoutCalculator.get_cell_size cfg).1 / src.width) =
        (LayoutCalculator.get_cell_size cfg).1 := by
      field_simp
    rw [hs]
    exact le_trans (mul_le_mul_of_nonneg_left hmin (le_of_lt hsw)) (le_of_eq heq)
  have h2 : src.height * LayoutCalculator.calculate_scale cfg src ≤
      (LayoutCalculator.get_cell_size cfg).2 := by
    have hmin := min_le_right ((LayoutCalculator.get_cell_size cfg).1 / src.width)
      ((LayoutCalculator.get_cell_size cfg).2 / src.height)
    have heq : src.height * ((LayoutCalculator.get_cell_size cfg).2 / src.height) =
        (LayoutCalculator.get_cell_size cfg).2 := by
      field_simp
    rw [hs]
    exact le_trans (mul_le_mul_of_nonneg_left hmin (le_of_lt hsh)) (le_of_eq heq)
  have h3 : 0 ≤ ((LayoutCalculator.get_cell_size cfg).1 -
      src.width * LayoutCalculator.calculate_scale cfg src) / 2 := by
    have := h1
    linarith
  have h4 : 0 ≤ ((LayoutCalculator.get_cell_size cfg).2 -
      src.height * LayoutCalculator.calculate_scale cfg src) / 2 := by
    have := h2
    linarith
  have hfc : Int.fmod index cfg.cols = index % cfg.cols :=
    Int.fmod_eq_emod _ (le_of_lt hcp)
  have hfr : Int.fmod (Int.fdiv index cfg.cols) cfg.rows = Int.fdiv index cfg.cols % cfg.rows :=
    Int.fmod_eq_emod _ (le_of_lt hr)
  have hcol0 : (0 : Int) ≤ (LayoutCalculator.get_cell_position cfg index).2 := by
    simp only [LayoutCalculator.get_cell_position]
    rw [hfc]
    exact Int.emod_nonneg _ (ne_of_gt hcp)
  have hcol1 : (LayoutCalculator.get_cell_position cfg index).2 ≤ cfg.cols - 1 := by
    have hlt : (LayoutCalculator.get_cell_position cfg index).2 < cfg.cols := by
      simp only [LayoutCalculator.get_cell_position]
      rw [hfc]
      exact Int.emod_lt_of_pos _ hcp
    omega
  have hrow0 : (0 : Int) ≤ (LayoutCalculator.get_cell_position cfg index).1 := by
    simp only [LayoutCalculator.get_cell_position]
    rw [hfr]
    exact Int.emod_nonneg _ (ne_of_gt hr)
  have hrow1 : (LayoutCalculator.get_cell_position cfg index).1 ≤ cfg.rows - 1 := by
    have hlt : (LayoutCalculator.get_cell_position cfg index).1 < cfg.rows := by
      simp only [LayoutCalculator.get_cell_position]
      rw [hfr]
      exact Int.emod_lt_of_pos _ hr
    omega
  have hcolq0 : (0 : ℚ) ≤ ((LayoutCalculator.get_cell_position cfg index).2 : ℚ) := by
    exact_mod_cast hcol0
  have hcolq1 : ((LayoutCalculator.get_cell_position cfg index).2 : ℚ) ≤ (cfg.cols : ℚ) - 1 := by
    have h := hcol1
    have : ((LayoutCalculator.get_cell_position cfg index).2 : ℚ) ≤ ((cfg.cols - 1 : Int) : ℚ) := by
      exact_mod_cast h
    push_cast at this
    exact this
  have hrowq0 : (0 : ℚ) ≤ ((LayoutCalculator.get_cell_position cfg index).1 : ℚ) := by
    exact_mod_cast hrow0
  have hrowq1 : ((LayoutCalculator.get_cell_position cfg index).1 : ℚ) ≤ (cfg.rows : ℚ) - 1 := by
    have h := hrow1
    have : ((LayoutCalculator.get_cell_position cfg index).1 : ℚ) ≤ ((cfg.rows - 1 : Int) : ℚ) := by
      exact_mod_cast h
    push_cast at this
    exact this
  have hcne : ((cfg.cols : ℚ)) ≠ 0 := by
    exact_mod_cast ne_of_gt hcp
  have hrne : ((cfg.rows : ℚ)) ≠ 0 := by
    exact_mod_cast ne_of_gt hr
  have hkeyc : (cfg.cols : ℚ) * (LayoutCalculator.get_cell_size cfg).1 =
      cfg.page_size.1 - 2 * cfg.margin - ((cfg.cols : ℚ) - 1) * cfg.gap := by
    simp only [LayoutCalculator.get_cell_size]
    rw [mul_comm, div_mul_cancel₀ _ hcne]
  have hkeyr : (cfg.rows : ℚ) * (LayoutCalculator.get_cell_size cfg).2 =
      cfg.page_size.2 - 2 * cfg.margin - ((cfg.rows : ℚ) - 1) * cfg.gap := by
    simp only [LayoutCalculator.get_cell_size]
    rw [mul_comm, div_mul_cancel₀ _ hrne]
  have hmono_c : ((LayoutCalculator.get_cell_position cfg index).2 : ℚ) *
      ((LayoutCalculator.get_cell_size cfg).1 + cfg.gap) ≤
      ((cfg.cols : ℚ) - 1) * ((LayoutCalculator.get_cell_size cfg).1 + cfg.gap) :=
    mul_le_mul_of_nonneg_right hcolq1 (by linarith)
  have hmono_r : ((LayoutCalculator.get_cell_position cfg index).1 : ℚ) *
      ((LayoutCalculator.get_cell_size cfg).2 + cfg.gap) ≤
      ((cfg.rows : ℚ) - 1) * ((LayoutCalculator.get_cell_size cfg).2 + cfg.gap) :=
    mul_le_mul_of_nonneg_right hrowq1 (by linarith)
  have hnn_c : 0 ≤ ((LayoutCalculator.get_cell_position cfg index).2 : ℚ) *
      ((LayoutCalculator.get_cell_size cfg).1 + cfg.gap) :=
    mul_nonneg hcolq0 (by linarith)
  have hnn_r : 0 ≤ ((LayoutCalculator.get_cell_position cfg index).1 : ℚ) *
      ((LayoutCalculator.get_cell_size cfg).2 + cfg.gap) :=
    mul_nonneg hrowq0 (by linarith)
  have hexp_c : ((cfg.cols : ℚ) - 1) * ((LayoutCalculator.get_cell_size cfg).1 + cfg.gap) +
      (LayoutCalculator.get_cell_size cfg).1 = cfg.page_size.1 - 2 * cfg.margin := by
    linear_combination hkeyc
  have hexp_r : ((cfg.rows : ℚ) - 1) * ((LayoutCalculator.get_cell_size cfg).2 + cfg.gap) +
      (LayoutCalculator.get_cell_size cfg).2 = cfg.page_size.2 - 2 * cfg.margin := by
    linear_combination hkeyr
  refine ⟨h1, h2, h3, h4, ?_, ?_⟩
  · simp only [LayoutCalculator.calculate_dest_rect, LayoutCalculator.cellRect, Rect.contains]
    refine ⟨by linarith, by linarith, by linarith, by linarith⟩
  · simp only [LayoutCalculator.calculate_dest_rect, Rect.contains, pageRect]
    refine ⟨by linarith, by linarith, by linarith, by linarith⟩

/-- Claim C10 witness: the destination rectangle of a 100 x 200 source at
index 0 on the default 2 x 2 grid lies inside its cell and inside the
output page. -/
theorem calculate_dest_rect_contained_witness :
    (cfg22.Valid ∧
     0 < (LayoutCalculator.get_cell_size cfg22).1 ∧
     0 < (LayoutCalculator.get_cell_size cfg22).2 ∧
     (0 : ℚ) < Rect.width ⟨0, 0, 100, 200⟩ ∧ (0 : ℚ) < Rect.height ⟨0, 0, 100, 200⟩) ∧
    (Rect.contains (LayoutCalculator.cellRect cfg22 0)
      (LayoutCalculator.calculate_dest_rect cfg22 ⟨0, 0, 100, 200⟩ 0) ∧
     Rect.contains (pageRect cfg22.page_size.1 cfg22.page_size.2)
      (LayoutCalculator.calculate_dest_rect cfg22 ⟨0, 0, 100, 200⟩ 0)) := by
  have hv : cfg22.Valid := by decide
  have hcw : (0 : ℚ) < (LayoutCalculator.get_cell_size cfg22).1 := by
    norm_num [LayoutCalculator.get_cell_size, LayoutConfig.page_size, cfg22]
  have hch : (0 : ℚ) < (LayoutCalculator.get_cell_size cfg22).2 := by
    norm_num [LayoutCalculator.get_cell_size, LayoutConfig.page_size, cfg22]
  have hw : (0 : ℚ) < Rect.width ⟨0, 0, 100, 200⟩ := by
    norm_num [Rect.width, max_def]
  have hh : (0 : ℚ) < Rect.height ⟨0, 0, 100, 200⟩ := by
    norm_num [Rect.height, max_def]
  have h := calculate_dest_rect_contained cfg22 ⟨0, 0, 100, 200⟩ 0 hv hcw hch hw hh
  exact ⟨⟨hv, hcw, hch, hw, hh⟩, h.2.2.2.2⟩

end InvoiceMerge
